import Mathlib

/-!
Verification of the Springer journal client
(`src/HISTOGRAMS/clients/springer_client.py`): the Article #1 locator, the
comparison-cohort collector, the query builder, and the endpoint
failover logic, shallowly embedded as pure Lean functions.

The external HTTP source is abstracted as an oracle mapping a search
window ("probe") to the list of article records the paginated search for
that window would return.  Every window-level search the Python client
performs is recorded in a probe trace, so that call-count and
probe-order properties can be stated.
-/

namespace Springer

/-- One article record as produced by `_parse_jats_xml`.  Only the fields
the locator/collector logic reads are modelled; every field is optional
exactly as a missing key in the Python dict. -/
structure Article where
  doi : Option String
  article_number : Option String
  publication_date : Option String
deriving Repr, DecidableEq

/-- `article.get('article_number') == '1'` — the Article #1 test. -/
def isOne (a : Article) : Bool := a.article_number == some "1"

/-- One window-level search issued against the API: either a single-day
query (`search_articles_by_date`) or a date-range query by formatted
strings (`search_articles_by_date_range_str`, which also underlies
`search_articles_by_date_range` and `search_articles_by_month`). -/
inductive Probe where
  | day (year month dayOfMonth : Nat)
  | rangeStr (startDate endDate : String)
deriving Repr, DecidableEq

/-- The abstract data source: the articles the paginated search for a
window returns.  Replaces the HTTP transport. -/
def Oracle : Type := Probe → List Article

/-- Zero-pad a natural number to the given width, as Python `{:0Nd}`
does for non-negative ints (wider numbers are left unchanged). -/
def padNum (width n : Nat) : String :=
  String.mk (List.replicate (width - (toString n).length) '0') ++ toString n

/-- `f"{year:04d}-{month:02d}-{day:02d}"`, the query-date format. -/
def fmtDate (y m d : Nat) : String :=
  padNum 4 y ++ "-" ++ padNum 2 m ++ "-" ++ padNum 2 d

/-- `f"{year}-{month:02d}-{day:02d}"` — the return-date format used by
the locator (year not padded). -/
def dateStrU (y m d : Nat) : String :=
  toString y ++ "-" ++ padNum 2 m ++ "-" ++ padNum 2 d

/-- `calendar.isleap`. -/
def isLeapYear (y : Nat) : Bool :=
  (y % 4 == 0 && y % 100 != 0) || y % 400 == 0

/-- `calendar.monthrange(year, month)[1]`: number of days in the month
(months 1..12; the Python function raises outside that range, callers
in the client only pass 1..12). -/
def daysInMonth (y m : Nat) : Nat :=
  if m == 2 then (if isLeapYear y then 29 else 28)
  else if m == 4 || m == 6 || m == 9 || m == 11 then 30
  else 31

/-- The per-month day bound of `_find_article_1_day_by_day`
(`max_day = 31 if current_month == 1 else 28`, then overridden for
February and the 30-day months — months 3,5,7,8,10,12 keep 28). -/
def maxDayPy (y m : Nat) : Nat :=
  if m == 2 then (if isLeapYear y then 29 else 28)
  else if m == 4 || m == 6 || m == 9 || m == 11 then 30
  else if m == 1 then 31 else 28

/-- A date triple `(year, month, day)`. -/
abbrev Date3 := Nat × Nat × Nat

/-- Format a date triple as `strftime("%Y-%m-%d")`. -/
def fmtDate3 (x : Date3) : String := fmtDate x.1 x.2.1 x.2.2

/-- A search window as a pair of date triples (start, end), formatted
into a range probe only when the query is issued. -/
def probeOfWindow (w : Date3 × Date3) : Probe :=
  Probe.rangeStr (fmtDate3 w.1) (fmtDate3 w.2)

/-- The window of `search_articles_by_month`: first of the month through
`calendar.monthrange`'s last day, with December special-cased to end at
Dec 31. -/
def monthWindow (y m : Nat) : Date3 × Date3 :=
  ((y, m, 1), if m == 12 then (y, 12, 31) else (y, m, daysInMonth y m))

/-- A weekly window of the locator's 6-week scan: the end day is clamped
to the month length (`actual_end_day = min(end_day, days_in_month)`). -/
def weeklyWindow (y m sd ed : Nat) : Date3 × Date3 :=
  ((y, m, sd), (y, m, min ed (daysInMonth y m)))

/-- The six fixed week specs `(month, start_day, end_day)` of Step 3 of
`find_article_number_1_with_cache`. -/
def weeklySearches : List (Nat × Nat × Nat) :=
  [(1, 3, 9), (1, 10, 16), (1, 17, 23), (1, 24, 31), (2, 1, 7), (2, 8, 14)]

/-- The February-remainder window of Step 4 (Feb 15 through the end of
February). -/
def febRemainderWindow (y : Nat) : Date3 × Date3 :=
  ((y, 2, 15), (y, 2, daysInMonth y 2))

/-- The full fixed sequence of range windows probed after Jan 2 / Jan 1
fail: six weekly windows, the February remainder (guarded by
`days_in_feb > 14`, as in the source), then the full months March
through December. -/
def locatorWindows (y : Nat) : List Probe :=
  (weeklySearches.map fun t => probeOfWindow (weeklyWindow y t.1 t.2.1 t.2.2)) ++
    (if 14 < daysInMonth y 2 then [probeOfWindow (febRemainderWindow y)] else []) ++
    ((List.range' 3 10).map fun m => probeOfWindow (monthWindow y m))

/-- Scan a list of windows in order; the first window whose results
contain an `article_number == "1"` record stops the scan and that
record's `publication_date` is returned.  Every probe's results are
accumulated into the cache, and the probes issued are traced. -/
def scanWindows (oracle : Oracle) :
    List Probe → (Option Article × Option String × List Article) × List Probe
  | [] => ((none, none, []), [])
  | w :: ws =>
    match (oracle w).find? isOne with
    | some a => ((some a, a.publication_date, oracle w), [w])
    | none =>
      let rest := scanWindows oracle ws
      ((rest.1.1, rest.1.2.1, oracle w ++ rest.1.2.2), w :: rest.2)

/-- Inner loop of `_find_article_1_day_by_day`: probe consecutive single
days of one month.  `fuel` is the number of remaining days
(`max_day + 1 - day`). -/
def scanDays (oracle : Oracle) (y m : Nat) :
    Nat → Nat → Option (Article × String) × List Probe
  | _, 0 => (none, [])
  | d, fuel + 1 =>
    match (oracle (Probe.day y m d)).find? isOne with
    | some a => (some (a, dateStrU y m d), [Probe.day y m d])
    | none =>
      let rest := scanDays oracle y m (d + 1) fuel
      (rest.1, Probe.day y m d :: rest.2)

/-- Outer loop of `_find_article_1_day_by_day`: iterate months until
December, resetting the day to 1 on month change; when the original
start was January 1 (`breakJan`), break after the first month, as the
source does.  `fuel` bounds the remaining months (`13 - month`). -/
def scanFromMonth (oracle : Oracle) (y : Nat) (breakJan : Bool) :
    Nat → Nat → Nat → Option (Article × String) × List Probe
  | _, _, 0 => (none, [])
  | month, d, fuel + 1 =>
    if month ≤ 12 then
      let inner := scanDays oracle y month d (maxDayPy y month + 1 - d)
      match inner.1 with
      | some x => (some x, inner.2)
      | none =>
        if breakJan && 1 < month + 1 then (none, inner.2)
        else
          let rest := scanFromMonth oracle y breakJan (month + 1) 1 fuel
          (rest.1, inner.2 ++ rest.2)
    else (none, [])

/-- `_find_article_1_day_by_day`: day-by-day search from the given start
date.  Returns the found `(record, date)` and the probe trace. -/
def findArticle1DayByDay (oracle : Oracle) (y sm sd : Nat) :
    Option (Article × String) × List Probe :=
  scanFromMonth oracle y (sm == 1 && sd == 1) sm sd (13 - sm)

/-- The regular-year path of `find_article_number_1_with_cache`:
Jan 2, then Jan 1, then the fixed weekly/monthly window sequence. -/
def findArticle1Regular (oracle : Oracle) (y : Nat) :
    (Option Article × Option String × List Article) × List Probe :=
  let jan2 := oracle (Probe.day y 1 2)
  match jan2.find? isOne with
  | some a =>
    ((some a, some (toString y ++ "-01-02"), jan2), [Probe.day y 1 2])
  | none =>
    let jan1 := oracle (Probe.day y 1 1)
    match jan1.find? isOne with
    | some a =>
      ((some a, some (toString y ++ "-01-01"), jan2 ++ jan1),
        [Probe.day y 1 2, Probe.day y 1 1])
    | none =>
      let scanned := scanWindows oracle (locatorWindows y)
      ((scanned.1.1, scanned.1.2.1, jan2 ++ jan1 ++ scanned.1.2.2),
        Probe.day y 1 2 :: Probe.day y 1 1 :: scanned.2)

/-- `find_article_number_1_with_cache`.  For a start date other than
January 1 (a journal's inaugural year) the start date is probed first
and then the day-by-day fallback runs; the fallback's results are not
added to the cache, exactly as in the source.  Returns
`(record?, date?, cache)` and the probe trace. -/
def findArticle1WithCache (oracle : Oracle) (y sm sd : Nat) :
    (Option Article × Option String × List Article) × List Probe :=
  if sm != 1 || sd != 1 then
    let arts := oracle (Probe.day y sm sd)
    match arts.find? isOne with
    | some a => ((some a, some (dateStrU y sm sd), arts), [Probe.day y sm sd])
    | none =>
      let fallback := findArticle1DayByDay oracle y sm sd
      match fallback.1 with
      | some x =>
        ((some x.1, some x.2, arts), Probe.day y sm sd :: fallback.2)
      | none => ((none, none, arts), Probe.day y sm sd :: fallback.2)
  else
    findArticle1Regular oracle y

end Springer

namespace Springer

/-- Lexicographic comparison of char lists by code point — the order
Python uses for `str` comparison. -/
def charLe : List Char → List Char → Bool
  | [], _ => true
  | _ :: _, [] => false
  | a :: as, b :: bs =>
    if a.toNat < b.toNat then true
    else if b.toNat < a.toNat then false
    else charLe as bs

/-- Python `a <= b` on strings. -/
def strLe (a b : String) : Bool := charLe a.data b.data

/-- Split a char list on a separator character (like `str.split` with a
one-character separator). -/
def splitOnChar (sep : Char) : List Char → List (List Char)
  | [] => [[]]
  | c :: cs =>
    match splitOnChar sep cs with
    | [] => [[]]
    | h :: t => if c == sep then [] :: h :: t else (c :: h) :: t

/-- Python `int(...)` restricted to the plain digit strings the client
produces for date components; `none` models the `ValueError` on
anything else. -/
def charsToNat? (l : List Char) : Option Nat :=
  if !l.isEmpty && l.all Char.isDigit then
    some (l.foldl (fun acc c => acc * 10 + (c.toNat - 48)) 0)
  else none

/-- `map(int, target_date.split('-'))` unpacked into three values;
`none` models the `ValueError` raised on a malformed date string. -/
def parse3 (s : String) : Option Date3 :=
  match (splitOnChar '-' s.data).map charsToNat? with
  | [some y, some m, some d] => some (y, m, d)
  | _ => none

/-- Validity check of `datetime(year, month, day)` (which raises
`ValueError` on out-of-range components). -/
def validDate (y m d : Nat) : Bool :=
  1 ≤ y && y ≤ 9999 && 1 ≤ m && m ≤ 12 && 1 ≤ d && d ≤ daysInMonth y m

/-- Successor day in the proleptic Gregorian calendar. -/
def nextDay (x : Date3) : Date3 :=
  if x.2.2 < daysInMonth x.1 x.2.1 then (x.1, x.2.1, x.2.2 + 1)
  else if x.2.1 < 12 then (x.1, x.2.1 + 1, 1)
  else (x.1 + 1, 1, 1)

/-- `date + timedelta(days=n)`. -/
def addDays : Nat → Date3 → Date3
  | 0, x => x
  | n + 1, x => addDays n (nextDay x)

/-- `datetime` comparison `a <= b`, lexicographic on (year, month, day). -/
def dateLe (a b : Date3) : Bool :=
  a.1 < b.1 || (a.1 == b.1 &&
    (a.2.1 < b.2.1 || (a.2.1 == b.2.1 && a.2.2 ≤ b.2.2)))

/-- The estimated number of days to search
(`max(30, ceil(articles_needed / articles_on_target_day)) if needed
else 30`, plus one buffer day), from
`_expand_comparison_articles_from_date`.  Only evaluated when the
target day had at least one article. -/
def estimatedDaysNeeded (articlesNeeded rate : Nat) : Nat :=
  (if 0 < articlesNeeded then max 30 ((articlesNeeded + rate - 1) / rate)
   else 30) + 1

/-- End of the estimated search range: the day after the target date
advanced by `days - 1`, clamped back to December 31 when the sum leaves
the target year. -/
def estimatedEndDate (y m d days : Nat) : Date3 :=
  let e := addDays (days - 1) (y, m, d + 1)
  if y < e.1 then (y, 12, 31) else e

/-- Inner loop of the week-by-week fallback of
`_expand_comparison_articles_from_date`: 7-day windows inside one month,
stopping once `min_articles` is reached or the month ends.  `fuel`
bounds the iterations (each step advances the day by at least one). -/
def weekScanDays (oracle : Oracle) (y cm minArticles : Nat) :
    Nat → List Article → Nat → List Article × List Probe
  | _, acc, 0 => (acc, [])
  | cd, acc, fuel + 1 =>
    let dim := daysInMonth y cm
    if cd ≤ dim && acc.length < minArticles then
      let weekEnd := min (cd + 6) dim
      let w := probeOfWindow ((y, cm, cd), (y, cm, weekEnd))
      let arts := oracle w
      let rest := weekScanDays oracle y cm minArticles (weekEnd + 1) (acc ++ arts) fuel
      (rest.1, w :: rest.2)
    else (acc, [])

/-- Outer loop of the week-by-week fallback: months until December or
until `min_articles` is reached.  `none` models the
`calendar.IllegalMonthError` raised by `monthrange` on month 0. -/
def expandWeeklyLoop (oracle : Oracle) (y minArticles : Nat) :
    Nat → Nat → List Article → Nat → Option (List Article) × List Probe
  | _, _, acc, 0 => (some acc, [])
  | cm, cd, acc, fuel + 1 =>
    if cm ≤ 12 && acc.length < minArticles then
      if cm < 1 then (none, [])
      else
        let inner := weekScanDays oracle y cm minArticles cd acc (daysInMonth y cm + 1)
        let rest := expandWeeklyLoop oracle y minArticles (cm + 1) 1 inner.1 fuel
        (rest.1, inner.2 ++ rest.2)
    else (some acc, [])

/-- The part of `_expand_comparison_articles_from_date` after the
same-day count `rate` (`articles_on_target_day`) is known: either the
estimated-range search (plus the rest-of-year search when still short),
or the week-by-week fallback when the target day had no articles.
`none` models the `ValueError` of `datetime(year, month, day+1)` on an
invalid start date.  (The `OverflowError` past year 9999 of the
timedelta addition is not modelled; the end date is clamped to Dec 31
of the target year as in the source.) -/
def expandAfterDay (oracle : Oracle) (minArticles y m d : Nat)
    (allArticles : List Article) (rate : Nat) :
    Option (List Article) × List Probe :=
  if 0 < rate then
    if validDate y m (d + 1) then
      let days := estimatedDaysNeeded (minArticles - allArticles.length) rate
      let startD : Date3 := (y, m, d + 1)
      let endD := estimatedEndDate y m d days
      let estProbe := Probe.rangeStr (fmtDate3 startD) (fmtDate3 endD)
      let all2 := allArticles ++ oracle estProbe
      if minArticles ≤ all2.length then (some all2, [estProbe])
      else
        let nextStart := addDays 1 endD
        let yearEnd : Date3 := (y, 12, 31)
        if nextStart.1 == y && dateLe nextStart yearEnd then
          let remProbe := Probe.rangeStr (fmtDate3 nextStart) (fmtDate3 yearEnd)
          (some (all2 ++ oracle remProbe), [estProbe, remProbe])
        else (some all2, [estProbe])
    else (none, [])
  else
    expandWeeklyLoop oracle y minArticles m (d + 1) allArticles (13 - m)

/-- `_expand_comparison_articles_from_date`: start from the existing
articles, probe the target day itself when no cached same-day article
is present (dropping any `"1"`-numbered record from that day's
results), then expand per `expandAfterDay`. -/
def expandComparison (oracle : Oracle) (targetDate : String)
    (minArticles : Nat) (existing : List Article) :
    Option (List Article) × List Probe :=
  match parse3 targetDate with
  | none => (none, [])
  | some (y, m, d) =>
    let sameDay := existing.filter fun a => a.publication_date == some targetDate
    if sameDay.isEmpty then
      let dayArts := (oracle (Probe.day y m d)).filter fun a => !(a.article_number == some "1")
      let res := expandAfterDay oracle minArticles y m d (existing ++ dayArts) dayArts.length
      (res.1, Probe.day y m d :: res.2)
    else
      expandAfterDay oracle minArticles y m d existing sameDay.length

/-- `collect_comparison_articles`: reuse the cache when present — the
records dated on or after the target date are the comparison
candidates, returned as-is when they already meet `min_articles` — and
otherwise expand from the target date.  The `year` argument is only
logged by the source and does not influence the result. -/
def collectComparisonArticles (oracle : Oracle) (year : Nat)
    (targetDate : String) (minArticles : Nat) (cachedArticles : List Article) :
    Option (List Article) × List Probe :=
  match parse3 targetDate with
  | none => (none, [])
  | some _ =>
    if !cachedArticles.isEmpty then
      let candidates := cachedArticles.filter fun a =>
        strLe targetDate (a.publication_date.getD "")
      if minArticles ≤ candidates.length then (some candidates, [])
      else expandComparison oracle targetDate minArticles candidates
    else
      expandComparison oracle targetDate minArticles []

end Springer

namespace Springer

/-- The parameter dict built for one page request. -/
structure QueryParams where
  api_key : String
  q : String
  s : Nat
  p : Nat
  sort : String
  order : String
deriving Repr, DecidableEq

/-- The params of `search_articles_by_date` (single-day query:
`datefrom` and `dateto` both equal to the query date). -/
def buildDateParams (apiKey issn : String) (y m d batchSize : Nat) : QueryParams :=
  { api_key := apiKey
    q := "issn:" ++ issn ++ " AND datefrom:" ++ fmtDate y m d ++
      " AND dateto:" ++ fmtDate y m d ++ " AND type:Journal"
    s := 1
    p := batchSize
    sort := "date"
    order := "desc" }

/-- The params of `search_articles_by_date_range_str`
(`onlinedatefrom`/`onlinedateto` bounds). -/
def buildRangeParams (apiKey issn startDate endDate : String) (batchSize : Nat) : QueryParams :=
  { api_key := apiKey
    q := "issn:" ++ issn ++ " AND onlinedatefrom:" ++ startDate ++
      " AND onlinedateto:" ++ endDate ++ " AND type:Journal"
    s := 1
    p := batchSize
    sort := "date"
    order := "desc" }

/-- `self.api_key_openaccess = API_KEY_OPENACCESS or API_KEY_META`:
an unset (`none`) or empty configured open-access key falls back to the
meta key. -/
def apiKeyOpenaccessInit (cfg : Option String) (meta : String) : String :=
  match cfg with
  | none => meta
  | some s => if s == "" then meta else s

/-- `_get_api_endpoint_and_key`: the open-access endpoint is used only
when the journal is open access, the sticky flag is still set, and the
open-access key is truthy and distinct from the meta key. -/
def getApiEndpointAndKey (baseUrl keyMeta keyOA : String)
    (useOpenaccess isOpenAccess : Bool) : String × String :=
  if isOpenAccess && useOpenaccess && !(keyOA == "") && !(keyOA == keyMeta) then
    (baseUrl ++ "/openaccess/jats", keyOA)
  else
    (baseUrl ++ "/meta/v2/jats", keyMeta)

/-- `pat` is a prefix of `l` (char lists). -/
def charPrefix : List Char → List Char → Bool
  | [], _ => true
  | _ :: _, [] => false
  | p :: ps, c :: cs => p == c && charPrefix ps cs

/-- Python `pat in s` on char lists (empty pattern matches anywhere). -/
def charContains (pat : List Char) : List Char → Bool
  | [] => pat.isEmpty
  | c :: cs => charPrefix pat (c :: cs) || charContains pat cs

/-- Python `pat in s` for strings. -/
def strContains (s pat : String) : Bool := charContains pat.data s.data

/-- `str.replace` on char lists, replacing every occurrence of a
non-empty pattern; fuelled by the list length. -/
def charReplace (pat rep : List Char) : List Char → Nat → List Char
  | l, 0 => l
  | [], _ + 1 => []
  | c :: cs, fuel + 1 =>
    if charPrefix pat (c :: cs) && !pat.isEmpty then
      rep ++ charReplace pat rep ((c :: cs).drop pat.length) fuel
    else
      c :: charReplace pat rep cs fuel

/-- Python `s.replace(pat, rep)` (for the non-empty patterns the client
uses). -/
def strReplace (s pat rep : String) : String :=
  String.mk (charReplace pat.data rep.data s.data s.data.length)

/-- Outcome of `_make_request`: the response body (or `None`), the
updated sticky `use_openaccess` flag, and the endpoints hit in order.
The response oracle maps an endpoint to its HTTP status and body.
`fuel` only caps the 429-retry recursion; depth 2 is exact because the
retry clears the flag that guards a further retry. -/
def makeRequestFuel (responses : String → Nat × String) :
    Nat → Bool → String → Option String × Bool × List String
  | 0, useOA, _ => (none, useOA, [])
  | fuel + 1, useOA, endpoint =>
    let r := responses endpoint
    if r.1 == 200 then (some r.2, useOA, [endpoint])
    else if r.1 == 404 then (none, useOA, [endpoint])
    else if r.1 == 429 then
      if strContains endpoint "/openaccess/" && useOA then
        let metaEndpoint := strReplace endpoint "/openaccess/" "/meta/v2/"
        let retry := makeRequestFuel responses fuel false metaEndpoint
        (retry.1, retry.2.1, endpoint :: retry.2.2)
      else (none, useOA, [endpoint])
    else (none, useOA, [endpoint])

/-- `_make_request` with its sticky-failover retry. -/
def makeRequest (responses : String → Nat × String) (useOA : Bool)
    (endpoint : String) : Option String × Bool × List String :=
  makeRequestFuel responses 2 useOA endpoint

end Springer

namespace Springer

lemma scanWindows_trace_length_le (oracle : Oracle) :
    ∀ ws : List Probe, (scanWindows oracle ws).2.length ≤ ws.length := by
  intro ws
  induction ws with
  | nil => simp [scanWindows]
  | cons w ws ih =>
    simp only [scanWindows]
    rcases h : (oracle w).find? isOne with _ | a
    · simpa using Nat.succ_le_succ ih
    · simp

lemma locatorWindows_length_le (y : Nat) : (locatorWindows y).length ≤ 17 := by
  simp only [locatorWindows, List.length_append, List.length_map]
  split <;> simp [weeklySearches]

lemma scanDays_trace_length_le (oracle : Oracle) (y m : Nat) :
    ∀ fuel d, (scanDays oracle y m d fuel).2.length ≤ fuel := by
  intro fuel
  induction fuel with
  | zero => intro d; simp [scanDays]
  | succ n ih =>
    intro d
    simp only [scanDays]
    rcases h : (oracle (Probe.day y m d)).find? isOne with _ | a
    · simpa using Nat.succ_le_succ (ih (d + 1))
    · simp

/-- Sum of the day-by-day scan's per-month day caps over the remaining
months. -/
def sumMaxFrom (y : Nat) : Nat → Nat → Nat
  | _, 0 => 0
  | month, fuel + 1 => maxDayPy y month + sumMaxFrom y (month + 1) fuel

lemma scanFromMonth_trace_length_le (oracle : Oracle) (y : Nat) (b : Bool) :
    ∀ fuel month d, 1 ≤ d →
      (scanFromMonth oracle y b month d fuel).2.length ≤ sumMaxFrom y month fuel := by
  intro fuel
  induction fuel with
  | zero => intro month d _; simp [scanFromMonth, sumMaxFrom]
  | succ n ih =>
    intro month d hd
    simp only [scanFromMonth, sumMaxFrom]
    split
    · have hinner : (scanDays oracle y month d (maxDayPy y month + 1 - d)).2.length ≤
          maxDayPy y month := by
        calc (scanDays oracle y month d (maxDayPy y month + 1 - d)).2.length
            ≤ maxDayPy y month + 1 - d := scanDays_trace_length_le oracle y month _ d
          _ ≤ maxDayPy y month := by omega
      rcases h : (scanDays oracle y month d (maxDayPy y month + 1 - d)).1 with _ | x
      · simp only []
        split
        · exact le_trans hinner (Nat.le_add_right _ _)
        · simp only [List.length_append]
          exact Nat.add_le_add hinner (ih (month + 1) 1 le_rfl)
      · exact le_trans hinner (Nat.le_add_right _ _)
    · simp

lemma maxDayPy_two_le (y : Nat) : maxDayPy y 2 ≤ 29 := by
  cases h : isLeapYear y <;> simp [maxDayPy, h]

lemma sumMaxFrom_le_348 (y sm : Nat) (h1 : 1 ≤ sm) :
    sumMaxFrom y sm (13 - sm) ≤ 348 := by
  rcases le_or_lt sm 12 with h2 | h2
  · interval_cases sm <;>
      simp [sumMaxFrom, maxDayPy] <;>
      rcases h : isLeapYear y <;> simp [h]
  · have : 13 - sm = 0 := by omega
    rw [this]
    simp [sumMaxFrom]

/-- C2 (amended): for a regular year the locator executes at most 19
window probes — January 2, January 1, six weekly windows, the February
remainder, and the ten months March..December; the inaugural-year
day-by-day fallback is bounded by 348 probes (it scans from the start
date through December, skipping days 29-31 of the 31-day months other
than January). -/
theorem locator_probe_bounds :
    (∀ (oracle : Oracle) (y : Nat),
      (findArticle1WithCache oracle y 1 1).2.length ≤ 19) ∧
    (∀ (oracle : Oracle) (y sm sd : Nat), 1 ≤ sm → 1 ≤ sd →
      (findArticle1DayByDay oracle y sm sd).2.length ≤ 348) := by
  constructor
  · intro oracle y
    have hcond : ((1 : Nat) != 1 || (1 : Nat) != 1) = false := by decide
    simp only [findArticle1WithCache, hcond, Bool.false_eq_true, if_false]
    simp only [findArticle1Regular]
    rcases h2 : (oracle (Probe.day y 1 2)).find? isOne with _ | a
    · rcases h1 : (oracle (Probe.day y 1 1)).find? isOne with _ | a
      · simp only [List.length_cons]
        have := le_trans (scanWindows_trace_length_le oracle (locatorWindows y))
          (locatorWindows_length_le y)
        omega
      · simp
    · simp
  · intro oracle y sm sd hm hd
    exact le_trans
      (scanFromMonth_trace_length_le oracle y _ (13 - sm) sm sd hd)
      (sumMaxFrom_le_348 y sm hm)

/-- C2 witness: the bounds instantiated on the empty source, at a
regular year and at an inaugural start date of March 1. -/
theorem locator_probe_bounds_witness :
    (findArticle1WithCache (fun _ => ([] : List Article)) 2021 1 1).2.length ≤ 19 ∧
    (findArticle1DayByDay (fun _ => ([] : List Article)) 2021 3 1).2.length ≤ 348 :=
  ⟨locator_probe_bounds.1 (fun _ => []) 2021,
    locator_probe_bounds.2 (fun _ => []) 2021 3 1 (by decide) (by decide)⟩

set_option maxRecDepth 100000 in
/-- C2 counterexample: with a source that never contains an
`article_number == "1"` record, a regular-year search executes exactly
19 window probes — more than the claimed 18 — and the day-by-day
fallback started at January 2 executes 346 probes — far more than the
claimed 59. -/
theorem locator_probe_count_exceeds_claim :
    (findArticle1WithCache (fun _ => ([] : List Article)) 2021 1 1).2.length = 19 ∧
    (findArticle1DayByDay (fun _ => ([] : List Article)) 2021 1 2).2.length = 346 := by
  decide

/-- C3: if any record of the January-2 probe has `article_number ==
"1"`, the locator returns (the first such record, the date string
`"<year>-01-02"`, the January-2 results as cache) and its probe trace
is exactly the single January-2 probe — no Jan-1, weekly, or monthly
probe runs. -/
theorem jan2_first_found_wins (oracle : Oracle) (y : Nat)
    (h : ∃ r ∈ oracle (Probe.day y 1 2), isOne r = true) :
    ∃ r, (oracle (Probe.day y 1 2)).find? isOne = some r ∧ isOne r = true ∧
      findArticle1WithCache oracle y 1 1 =
        ((some r, some (toString y ++ "-01-02"), oracle (Probe.day y 1 2)),
          [Probe.day y 1 2]) := by
  obtain ⟨r, hr⟩ := Option.isSome_iff_exists.mp (List.find?_isSome.mpr h)
  refine ⟨r, hr, List.find?_some hr, ?_⟩
  have hcond : ((1 : Nat) != 1 || (1 : Nat) != 1) = false := by decide
  simp only [findArticle1WithCache, hcond, Bool.false_eq_true, if_false]
  simp only [findArticle1Regular, hr]

/-- A synthetic source carrying an `article_number == "1"` record both
on January 2 and in the week-3 window (Jan 17-23). -/
def jan2Oracle : Oracle := fun p =>
  if p = Probe.day 2021 1 2 then
    [⟨some "10.1/b", some "2", some "2021-01-02"⟩,
      ⟨some "10.1/one", some "1", some "2021-01-02"⟩]
  else if p = Probe.rangeStr "2021-01-17" "2021-01-23" then
    [⟨some "10.1/w", some "1", some "2021-01-19"⟩]
  else []

/-- C3 witness: a source carrying an Article #1 record both on January
2 and in the week-3 window; the locator returns the January-2 one after
a single probe. -/
theorem jan2_first_found_wins_witness :
    ∃ r, ((jan2Oracle (Probe.day 2021 1 2)).find? isOne = some r ∧ isOne r = true ∧
      findArticle1WithCache jan2Oracle 2021 1 1 =
        ((some r, some (toString 2021 ++ "-01-02"), jan2Oracle (Probe.day 2021 1 2)),
          [Probe.day 2021 1 2])) := by
  obtain ⟨r, h1, h2, h3⟩ := jan2_first_found_wins jan2Oracle 2021 (by decide)
  exact ⟨r, h1, h2, h3⟩

end Springer

namespace Springer

/-- The Article #1 record of the C1 failing input: `article_number ==
"1"`, published on the target date. -/
def article1Record : Article := ⟨some "10.1/one", some "1", some "2021-01-02"⟩

/-- A same-day comparison record of the C1 failing input. -/
def sameDayRecord : Article := ⟨some "10.1/b", some "2", some "2021-01-02"⟩

/-- C1: the cached-seed filter of `collect_comparison_articles` keeps
every cached record dated on or after the target date — it does not
exclude `article_number == "1"` — so the returned cohort contains the
Article #1 record itself whenever the cache (which always holds it
after a successful search) meets the minimum.  Here the cache
`[article1Record, sameDayRecord]` with `min_articles = 2` is returned
unchanged, Article #1 included, with no further probes. -/
theorem collect_comparison_includes_article1 :
    collectComparisonArticles (fun _ => ([] : List Article)) 2021 "2021-01-02" 2
        [article1Record, sameDayRecord] =
      (some [article1Record, sameDayRecord], []) ∧
    isOne article1Record = true := by
  decide

/-- C4: when the cache is non-empty and its records dated on or after
the target date already number at least `min_articles`, the collector
returns exactly that filtered seed set — untruncated — and issues no
search call at all (empty probe trace). -/
theorem cached_seed_sufficient_no_calls (oracle : Oracle) (year : Nat)
    (targetDate : String) (minArticles : Nat) (cache : List Article)
    (hp : (parse3 targetDate).isSome = true) (hc : cache ≠ [])
    (hs : minArticles ≤
      (cache.filter fun a => strLe targetDate (a.publication_date.getD "")).length) :
    collectComparisonArticles oracle year targetDate minArticles cache =
      (some (cache.filter fun a => strLe targetDate (a.publication_date.getD "")), []) := by
  obtain ⟨v, hv⟩ := Option.isSome_iff_exists.mp hp
  have hce : cache.isEmpty = false := by
    cases cache with
    | nil => exact absurd rfl hc
    | cons a l => rfl
  simp only [collectComparisonArticles, hv, hce, Bool.not_false, if_pos, if_true]
  rw [if_pos hs]

/-- C4 witness: a two-record cache meeting `min_articles = 2` is
returned as-is with zero probes. -/
theorem cached_seed_sufficient_no_calls_witness :
    collectComparisonArticles (fun _ => ([] : List Article)) 2021 "2021-01-02" 2
        [article1Record, sameDayRecord] =
      (some ([article1Record, sameDayRecord].filter fun a =>
        strLe "2021-01-02" (a.publication_date.getD "")), []) :=
  cached_seed_sufficient_no_calls (fun _ => []) 2021 "2021-01-02" 2
    [article1Record, sameDayRecord] (by decide) (by decide) (by decide)

end Springer

namespace Springer

lemma weekScanDays_extends (oracle : Oracle) (y cm minA : Nat) :
    ∀ fuel cd acc, ∃ r, (weekScanDays oracle y cm minA cd acc fuel).1 = acc ++ r := by
  intro fuel
  induction fuel with
  | zero => intro cd acc; exact ⟨[], by simp [weekScanDays]⟩
  | succ n ih =>
    intro cd acc
    simp only [weekScanDays]
    split
    · obtain ⟨r, hr⟩ := ih (min (cd + 6) (daysInMonth y cm) + 1)
        (acc ++ oracle (probeOfWindow ((y, cm, cd), y, cm, min (cd + 6) (daysInMonth y cm))))
      exact ⟨_, by rw [hr, List.append_assoc]⟩
    · exact ⟨[], by simp⟩

lemma expandWeeklyLoop_extends (oracle : Oracle) (y minA : Nat) :
    ∀ fuel cm cd acc out,
      (expandWeeklyLoop oracle y minA cm cd acc fuel).1 = some out →
      ∃ r, out = acc ++ r := by
  intro fuel
  induction fuel with
  | zero =>
    intro cm cd acc out h
    simp only [expandWeeklyLoop] at h
    obtain rfl : acc = out := by simpa using h
    exact ⟨[], by simp⟩
  | succ n ih =>
    intro cm cd acc out h
    simp only [expandWeeklyLoop] at h
    split at h
    · split at h
      · simp at h
      · simp only [] at h
        obtain ⟨r1, hr1⟩ := weekScanDays_extends oracle y cm minA (daysInMonth y cm + 1) cd acc
        obtain ⟨r2, hr2⟩ := ih (cm + 1) 1 _ out h
        exact ⟨r1 ++ r2, by rw [hr2, hr1, List.append_assoc]⟩
    · obtain rfl : acc = out := by simpa using h
      exact ⟨[], by simp⟩

end Springer

namespace Springer

lemma expandAfterDay_extends (oracle : Oracle) (minA y m d rate : Nat)
    (all out : List Article)
    (h : (expandAfterDay oracle minA y m d all rate).1 = some out) :
    ∃ r, out = all ++ r := by
  simp only [expandAfterDay] at h
  split at h
  · split at h
    · split at h
      · obtain rfl : all ++ _ = out := by simpa using h
        exact ⟨_, rfl⟩
      · split at h
        · obtain rfl : (all ++ _) ++ _ = out := by simpa using h
          exact ⟨_, List.append_assoc _ _ _⟩
        · obtain rfl : all ++ _ = out := by simpa using h
          exact ⟨_, rfl⟩
    · simp at h
  · exact expandWeeklyLoop_extends oracle y minA (13 - m) m (d + 1) all out h

lemma expandComparison_extends (oracle : Oracle) (targetDate : String)
    (minA : Nat) (existing out : List Article)
    (h : (expandComparison oracle targetDate minA existing).1 = some out) :
    ∃ r, out = existing ++ r := by
  simp only [expandComparison] at h
  rcases hp : parse3 targetDate with _ | ⟨y, m, d⟩ <;> rw [hp] at h
  · simp at h
  · simp only [] at h
    split at h
    · simp only [] at h
      obtain ⟨r, hr⟩ := expandAfterDay_extends oracle minA y m d _ _ out (by simpa using h)
      exact ⟨_, by rw [hr, List.append_assoc]⟩
    · exact expandAfterDay_extends oracle minA y m d _ _ out h

/-- C5 (amended): whenever the collector returns a cohort (no
exception), the cohort extends the seed set — the cached records dated
on or after the target date are a prefix of it, so its size is at least
the seed's size.  (No deduplication by `doi` is performed; see the
counterexample for a cohort with a repeated DOI.) -/
theorem cohort_extends_seed (oracle : Oracle) (year minArticles : Nat)
    (targetDate : String) (cache out : List Article) (tr : List Probe)
    (h : collectComparisonArticles oracle year targetDate minArticles cache =
      (some out, tr)) :
    ∃ rest,
      out = (cache.filter fun a => strLe targetDate (a.publication_date.getD "")) ++ rest ∧
      (cache.filter fun a => strLe targetDate (a.publication_date.getD "")).length ≤
        out.length := by
  have hfst : (collectComparisonArticles oracle year targetDate minArticles cache).1 =
      some out := by rw [h]
  simp only [collectComparisonArticles] at hfst
  rcases hp : parse3 targetDate with _ | v <;> rw [hp] at hfst
  · simp at hfst
  · simp only [] at hfst
    split at hfst
    · split at hfst
      · obtain rfl : _ = out := by simpa using hfst
        exact ⟨[], by simp⟩
      · obtain ⟨r, hr⟩ := expandComparison_extends oracle targetDate minArticles _ out hfst
        exact ⟨r, hr, by simp [hr]⟩
    · have hnil : cache = [] := by
        rename_i hemp
        simpa using hemp
      subst hnil
      obtain ⟨r, hr⟩ := expandComparison_extends oracle targetDate minArticles [] out hfst
      exact ⟨r, by simpa using hr, by simp [hr]⟩

end Springer

namespace Springer

/-- Seed records of the C5 counterexample: the cached Article #1 and a
same-day comparison record. -/
def seedOne : Article := ⟨some "10.1/a", some "1", some "2021-01-02"⟩

/-- Second seed record of the C5 counterexample. -/
def seedB : Article := ⟨some "10.1/b", some "2", some "2021-01-02"⟩

/-- A record fetched by the estimated-range search that carries the
same DOI as `seedB`. -/
def fetchedB : Article := ⟨some "10.1/b", some "2", some "2021-01-05"⟩

/-- A source whose estimated-range search (Jan 3 to Feb 2, the 31-day
window the collector issues here) returns a record with a DOI already
present in the seed. -/
def dupOracle : Oracle := fun p =>
  if p = Probe.rangeStr "2021-01-03" "2021-02-02" then [fetchedB] else []

set_option maxRecDepth 100000 in
/-- C5 counterexample: with two cached seed records and
`min_articles = 3`, the collector fetches the estimated range and
returns `[seedOne, seedB, fetchedB]` — `seedB` and `fetchedB` are two
distinct records with the same DOI, so the returned cohort is not
deduplicated by `doi` as the claim states. -/
theorem cohort_duplicate_doi :
    (collectComparisonArticles dupOracle 2021 "2021-01-02" 3 [seedOne, seedB]).1 =
      some [seedOne, seedB, fetchedB] ∧
    seedB.doi = fetchedB.doi ∧ seedB ≠ fetchedB := by
  decide

set_option maxRecDepth 100000 in
/-- C5 witness: the amended theorem applied to the counterexample
input — the three-record cohort extends the two-record seed. -/
theorem cohort_extends_seed_witness :
    ∃ rest,
      [seedOne, seedB, fetchedB] =
        ([seedOne, seedB].filter fun a => strLe "2021-01-02" (a.publication_date.getD "")) ++ rest ∧
      ([seedOne, seedB].filter fun a => strLe "2021-01-02" (a.publication_date.getD "")).length ≤
        ([seedOne, seedB, fetchedB] : List Article).length := by
  refine cohort_extends_seed dupOracle 2021 3 "2021-01-02" [seedOne, seedB]
    [seedOne, seedB, fetchedB] [Probe.rangeStr "2021-01-03" "2021-02-02"] ?_
  decide

end Springer

namespace Springer

/-- C6: a 429 on an open-access endpoint while the sticky flag is set
makes `_make_request` (a) clear `use_openaccess` permanently, (b) hit
exactly the original endpoint and then its `/meta/v2/` replacement —
one retry of the same query against meta, and (c) with the flag
cleared, every later endpoint selection yields the meta endpoint for
every journal; moreover a 429 on any endpoint that is not an
open-access one (or with the flag already cleared) returns `None` after
that single request, with no retry. -/
theorem rate_limit_failover_sticky (responses : String → Nat × String)
    (ep : String) (hs : (responses ep).1 = 429)
    (hin : strContains ep "/openaccess/" = true) :
    (makeRequest responses true ep).2.2 =
      [ep, strReplace ep "/openaccess/" "/meta/v2/"] ∧
    (makeRequest responses true ep).2.1 = false ∧
    (∀ base km ko oa, getApiEndpointAndKey base km ko false oa =
      (base ++ "/meta/v2/jats", km)) ∧
    ((responses (strReplace ep "/openaccess/" "/meta/v2/")).1 = 429 →
      (makeRequest responses true ep).1 = none) ∧
    (∀ (r2 : String → Nat × String) (u2 : Bool) (e2 : String),
      (r2 e2).1 = 429 → strContains e2 "/openaccess/" = false →
      makeRequest r2 u2 e2 = (none, u2, [e2])) := by
  have hmeta : ∀ (e : String),
      makeRequestFuel responses 1 false e =
        ((if (responses e).1 == 200 then some (responses e).2 else none), false, [e]) := by
    intro e
    simp only [makeRequestFuel]
    rcases h200 : (responses e).1 == 200
    · simp only [h200, Bool.false_eq_true, if_false]
      split <;> simp_all
    · simp [h200]
  refine ⟨?_, ?_, ?_, ?_, ?_⟩
  · simp only [makeRequest, makeRequestFuel, hs, hin]
    norm_num [hmeta]
    split <;> rfl
  · simp only [makeRequest, makeRequestFuel, hs, hin]
    norm_num [hmeta]
    split <;> rfl
  · intro base km ko oa
    simp [getApiEndpointAndKey]
  · intro h429
    simp only [makeRequest, makeRequestFuel, hs, hin]
    norm_num [h429]
  · intro r2 u2 e2 h429 hnotin
    simp only [makeRequest, makeRequestFuel, h429, hnotin]
    norm_num

/-- The response table of the C6 witness: 429 on the open-access
endpoint, 200 on everything else. -/
def witnessResponses : String → Nat × String := fun e =>
  if e = "https://api.test/openaccess/jats" then (429, "limited") else (200, "ok")

/-- C6 witness: the failover behaviour at a concrete endpoint and
response table. -/
theorem rate_limit_failover_sticky_witness :
    (makeRequest witnessResponses true "https://api.test/openaccess/jats").2.2 =
      ["https://api.test/openaccess/jats",
        strReplace "https://api.test/openaccess/jats" "/openaccess/" "/meta/v2/"] ∧
    (makeRequest witnessResponses true "https://api.test/openaccess/jats").2.1 = false ∧
    (∀ base km ko oa, getApiEndpointAndKey base km ko false oa =
      (base ++ "/meta/v2/jats", km)) ∧
    ((witnessResponses
        (strReplace "https://api.test/openaccess/jats" "/openaccess/" "/meta/v2/")).1 = 429 →
      (makeRequest witnessResponses true "https://api.test/openaccess/jats").1 = none) ∧
    (∀ (r2 : String → Nat × String) (u2 : Bool) (e2 : String),
      (r2 e2).1 = 429 → strContains e2 "/openaccess/" = false →
      makeRequest r2 u2 e2 = (none, u2, [e2])) :=
  rate_limit_failover_sticky witnessResponses "https://api.test/openaccess/jats"
    (by decide) (by decide)

end Springer

namespace Springer

lemma weekScanDays_windows (oracle : Oracle) (y cm minA : Nat) :
    ∀ fuel cd acc, ∀ p ∈ (weekScanDays oracle y cm minA cd acc fuel).2,
      ∃ a b, p = probeOfWindow ((y, cm, a), (y, cm, b)) ∧ a ≤ b ∧ b ≤ a + 6 := by
  intro fuel
  induction fuel with
  | zero => intro cd acc p hp; simp [weekScanDays] at hp
  | succ n ih =>
    intro cd acc p hp
    simp only [weekScanDays] at hp
    split at hp
    · rcases List.mem_cons.mp hp with h | h
      · rename_i hguard
        refine ⟨cd, min (cd + 6) (daysInMonth y cm), h, ?_, Nat.min_le_left _ _⟩
        have hcd : cd ≤ daysInMonth y cm := by
          have := (Bool.and_eq_true _ _).mp hguard |>.1
          exact Nat.le_of_ble_eq_true (by simpa using this)
        exact Nat.le_min.mpr ⟨Nat.le_add_right _ _, hcd⟩
      · exact ih _ _ p h
    · simp at hp

lemma expandWeeklyLoop_windows (oracle : Oracle) (y minA : Nat) :
    ∀ fuel cm cd acc, ∀ p ∈ (expandWeeklyLoop oracle y minA cm cd acc fuel).2,
      ∃ m a b, p = probeOfWindow ((y, m, a), (y, m, b)) ∧ a ≤ b ∧ b ≤ a + 6 := by
  intro fuel
  induction fuel with
  | zero => intro cm cd acc p hp; simp [expandWeeklyLoop] at hp
  | succ n ih =>
    intro cm cd acc p hp
    simp only [expandWeeklyLoop] at hp
    split at hp
    · split at hp
      · simp at hp
      · rcases List.mem_append.mp hp with h | h
        · obtain ⟨a, b, hab⟩ := weekScanDays_windows oracle y cm minA _ cd acc p h
          exact ⟨cm, a, b, hab⟩
        · exact ih _ _ _ p h
    · simp at hp

/-- C7 (amended): when the target day has a positive observed article
count `rate` and more articles are needed, the estimated span equals
`max(30, ceil(articles_needed / rate)) + 1` days (the second component
is the exact ceiling of the division); but when the observed rate is
zero the collector does not search an estimated 30-day window at all —
it falls back to week-by-week probing, and every window it then issues
spans at most 7 days of a single month of the target year. -/
theorem estimated_span_formula :
    (∀ needed rate, 0 < rate → 0 < needed →
      ∃ q, estimatedDaysNeeded needed rate = max 30 q + 1 ∧
        needed ≤ rate * q ∧ rate * (q - 1) < needed) ∧
    (∀ (oracle : Oracle) (y minA cm cd fuel : Nat) (acc : List Article),
      ∀ p ∈ (expandWeeklyLoop oracle y minA cm cd acc fuel).2,
        ∃ m a b, p = probeOfWindow ((y, m, a), (y, m, b)) ∧ a ≤ b ∧ b ≤ a + 6) := by
  constructor
  · intro needed rate h1 h2
    refine ⟨(needed + rate - 1) / rate, ?_, ?_, ?_⟩
    · simp [estimatedDaysNeeded, h2]
    · have hdm := Nat.div_add_mod (needed + rate - 1) rate
      have hmlt : (needed + rate - 1) % rate < rate := Nat.mod_lt _ h1
      generalize hA : rate * ((needed + rate - 1) / rate) = A at *
      omega
    · have hdm := Nat.div_add_mod (needed + rate - 1) rate
      have hmlt : (needed + rate - 1) % rate < rate := Nat.mod_lt _ h1
      have hq1 : 1 ≤ (needed + rate - 1) / rate := by
        have hge : rate ≤ needed + rate - 1 := by omega
        exact (Nat.one_le_div_iff h1).mpr hge
      have hmul : rate * ((needed + rate - 1) / rate - 1) =
          rate * ((needed + rate - 1) / rate) - rate := by
        rcases Nat.exists_eq_add_of_le hq1 with ⟨k, hk⟩
        rw [hk]
        simp [Nat.mul_add, Nat.mul_succ, Nat.add_comm]
      rw [hmul]
      generalize hA : rate * ((needed + rate - 1) / rate) = A at *
      omega
  · intro oracle y minA cm cd fuel acc p hp
    exact expandWeeklyLoop_windows oracle y minA fuel cm cd acc p hp

set_option maxRecDepth 100000 in
/-- C7 counterexample: target date 2021-06-15 with no cached and no
fetched same-day articles (observed rate zero) — the collector probes
the target day, then issues a 7-day window 2021-06-16..2021-06-22, and
no 30-day estimated window (neither 06-16..07-15 nor the 31-day
06-16..07-16) is ever searched, contradicting "defaults to a 30-day
estimated window". -/
theorem zero_rate_no_estimated_window :
    (collectComparisonArticles (fun _ => ([] : List Article)) 2021 "2021-06-15" 1 []).2.get? 1 =
      some (Probe.rangeStr "2021-06-16" "2021-06-22") ∧
    Probe.rangeStr "2021-06-16" "2021-07-15" ∉
      (collectComparisonArticles (fun _ => ([] : List Article)) 2021 "2021-06-15" 1 []).2 ∧
    Probe.rangeStr "2021-06-16" "2021-07-16" ∉
      (collectComparisonArticles (fun _ => ([] : List Article)) 2021 "2021-06-15" 1 []).2 := by
  decide

set_option maxRecDepth 100000 in
/-- C7 witness: the span formula at `needed = 7`, `rate = 2` (ceiling
4, span 31) and the weekly-fallback window shape at the first window
issued after a zero-rate target day. -/
theorem estimated_span_formula_witness :
    (∃ q, estimatedDaysNeeded 7 2 = max 30 q + 1 ∧ 7 ≤ 2 * q ∧ 2 * (q - 1) < 7) ∧
    (∃ m a b, Probe.rangeStr "2021-06-16" "2021-06-22" =
      probeOfWindow ((2021, m, a), (2021, m, b)) ∧ a ≤ b ∧ b ≤ a + 6) :=
  ⟨estimated_span_formula.1 7 2 (by decide) (by decide),
    estimated_span_formula.2 (fun _ => ([] : List Article)) 2021 1 6 16 7 []
      (Probe.rangeStr "2021-06-16" "2021-06-22") (by decide)⟩

end Springer

namespace Springer

lemma nextDay_year_le (x : Date3) : x.1 ≤ (nextDay x).1 := by
  simp only [nextDay]
  split
  · exact le_rfl
  · split
    · exact le_rfl
    · exact Nat.le_succ _

lemma addDays_year_le : ∀ (n : Nat) (x : Date3), x.1 ≤ (addDays n x).1 := by
  intro n
  induction n with
  | zero => intro x; exact le_rfl
  | succ k ih =>
    intro x
    exact le_trans (nextDay_year_le x) (ih (nextDay x))

/-- C8: every window the client constructs stays inside the target
calendar year: the end date of a monthly window (December included),
of a locator weekly window, of the February remainder, and of the
estimated range (clamped back to Dec 31 when the day arithmetic
crosses the year boundary) all carry the target year; and every window
of the collector's week-by-week fallback lies inside one month of the
target year. -/
theorem windows_within_year :
    (∀ y m, (monthWindow y m).2.1 = y) ∧
    (∀ y m sd ed, (weeklyWindow y m sd ed).2.1 = y) ∧
    (∀ y, (febRemainderWindow y).2.1 = y) ∧
    (∀ y m d days, (estimatedEndDate y m d days).1 = y) ∧
    (∀ (oracle : Oracle) (y minA cm cd fuel : Nat) (acc : List Article),
      ∀ p ∈ (expandWeeklyLoop oracle y minA cm cd acc fuel).2,
        ∃ m a b, p = probeOfWindow ((y, m, a), (y, m, b))) := by
  refine ⟨?_, fun y m sd ed => rfl, fun y => rfl, ?_, ?_⟩
  · intro y m
    simp only [monthWindow]
    split <;> rfl
  · intro y m d days
    simp only [estimatedEndDate]
    split
    · rfl
    · rename_i hnot
      have hle := addDays_year_le (days - 1) (y, m, d + 1)
      omega
  · intro oracle y minA cm cd fuel acc p hp
    obtain ⟨m, a, b, hw, _, _⟩ := expandWeeklyLoop_windows oracle y minA fuel cm cd acc p hp
    exact ⟨m, a, b, hw⟩

set_option maxRecDepth 100000 in
/-- C8 witness: the December month window, a clamped estimated end
date (Dec 26 + 30 days is past New Year and is truncated to Dec 31),
and a concrete fallback window, all within 2021. -/
theorem windows_within_year_witness :
    (monthWindow 2021 12).2.1 = 2021 ∧
    (estimatedEndDate 2021 12 25 31).1 = 2021 ∧
    (∃ m a b, Probe.rangeStr "2021-06-23" "2021-06-29" =
      probeOfWindow ((2021, m, a), (2021, m, b))) :=
  ⟨windows_within_year.1 2021 12,
    windows_within_year.2.2.2.1 2021 12 25 31,
    windows_within_year.2.2.2.2 (fun _ => ([] : List Article)) 2021 1 6 16 7 []
      (Probe.rangeStr "2021-06-23" "2021-06-29") (by decide)⟩

/-- C9 counterexample: the query parameters of both search functions
set `order` to `"desc"` — descending, not the ascending order the
claim states. -/
theorem query_order_is_desc :
    (buildRangeParams "key" "1234-5678" "2021-01-01" "2021-01-07" 25).order = "desc" ∧
    (buildDateParams "key" "1234-5678" 2021 1 2 25).order = "desc" ∧
    ¬((buildRangeParams "key" "1234-5678" "2021-01-01" "2021-01-07" 25).order = "asc") := by
  decide

/-- C9 (amended): the date filter is an inclusive range matching the
window's start and end (`datefrom`/`dateto` both equal to the query
date for a single-day search, `onlinedatefrom`/`onlinedateto` equal to
the window bounds for a range search), the sort key is the publication
date, but the order is descending, not ascending. -/
theorem query_params_shape (apiKey issn startDate endDate : String)
    (y m d batch : Nat) :
    (buildDateParams apiKey issn y m d batch).q =
      "issn:" ++ issn ++ " AND datefrom:" ++ fmtDate y m d ++
        " AND dateto:" ++ fmtDate y m d ++ " AND type:Journal" ∧
    (buildDateParams apiKey issn y m d batch).sort = "date" ∧
    (buildDateParams apiKey issn y m d batch).order = "desc" ∧
    (buildRangeParams apiKey issn startDate endDate batch).q =
      "issn:" ++ issn ++ " AND onlinedatefrom:" ++ startDate ++
        " AND onlinedateto:" ++ endDate ++ " AND type:Journal" ∧
    (buildRangeParams apiKey issn startDate endDate batch).sort = "date" ∧
    (buildRangeParams apiKey issn startDate endDate batch).order = "desc" :=
  ⟨rfl, rfl, rfl, rfl, rfl, rfl⟩

lemma meta_oa_endpoint_ne (base : String) :
    base ++ "/meta/v2/jats" ≠ base ++ "/openaccess/jats" := by
  intro h
  have hl := congrArg String.length h
  simp only [String.length_append] at hl
  have h13 : "/meta/v2/jats".length = 13 := by decide
  have h16 : "/openaccess/jats".length = 16 := by decide
  omega

/-- C10: the open-access endpoint is selected exactly when the journal
is open access, the sticky flag is still set, and the configured
open-access key is non-empty and different from the meta key;
whenever the open-access key equals the meta key the meta endpoint and
meta key are used regardless of the other inputs — in particular when
`API_KEY_OPENACCESS` is unset or empty, the constructor defaults it to
`API_KEY_META`, making the keys equal. -/
theorem openaccess_selection_condition (base km ko : String) (u oa : Bool) :
    ((getApiEndpointAndKey base km ko u oa).1 = base ++ "/openaccess/jats" ↔
      (oa = true ∧ u = true ∧ ko ≠ "" ∧ ko ≠ km)) ∧
    (ko = km → getApiEndpointAndKey base km ko u oa = (base ++ "/meta/v2/jats", km)) ∧
    (∀ meta : String, apiKeyOpenaccessInit none meta = meta) ∧
    (∀ meta : String, apiKeyOpenaccessInit (some "") meta = meta) := by
  refine ⟨?_, ?_, fun meta => rfl, fun meta => rfl⟩
  · cases oa <;> cases u <;>
      by_cases hk1 : ko = "" <;> by_cases hk2 : ko = km <;>
      simp [getApiEndpointAndKey, hk1, hk2, meta_oa_endpoint_ne base]
  · intro he
    simp [getApiEndpointAndKey, he]

/-- C10 witness: with equal keys the meta endpoint and key are
selected even for an open-access journal with the flag still set. -/
theorem openaccess_selection_condition_witness :
    getApiEndpointAndKey "https://api.test" "k" "k" true true =
      ("https://api.test" ++ "/meta/v2/jats", "k") :=
  (openaccess_selection_condition "https://api.test" "k" "k" true true).2.1 rfl

end Springer
